import Mathlib

/-!
Shallow embedding of `HiwonderSDK/build/lib/hiwonder/ActionGroupControl.py`.

The module keeps six process-wide mutable globals:
`runningAction`, `stop_action`, `stop_action_group`, `__start`, `__end`,
`current_status`.  We gather them in a state record `St` (`__start`/`__end`
are rendered `startF`/`endF`).

Effects are made explicit:
- the filesystem plus the sqlite action-group files become an `Env` mapping a
  resolved file path to the ordered frame list stored in its `ActionGroup`
  table (each row is `(index, duration, pos_1, …, pos_k)`);
- the servo transport `ctl.set_bus_servo_pulse` becomes a `SinkOk` oracle
  telling whether each call succeeds (`false` = the call raises);
- observable side effects (servo commands, sleeps, the sqlite connect that
  begins streaming a file, the `stop` print, the missing-file print) are
  recorded in order as a list of events `Ev`.

Python exceptions are modelled explicitly: `runAction` reports `raised = true`
when a sink call fails (the source has no try/finally, so the trailing
`runningAction = False` assignment is skipped on that path), and the
`try/except BaseException` wrapping each `runActionGroup` loop body catches
the flag and continues the loop.
-/

/-- One row of the `ActionGroup` table: `act = (index, duration, pos_1..pos_k)`.
`positions.get i` is `act[2 + i]`, commanded to servo `i + 1`. -/
structure Frame where
  duration : Int
  positions : List Int
  deriving Repr, DecidableEq

/-- The filesystem / sqlite store: resolved path to frame list, `none` when
`os.path.exists` is false. -/
structure Env where
  files : String → Option (List Frame)

/-- Success oracle for `ctl.set_bus_servo_pulse servo pos duration`:
`false` means that call raises. -/
def SinkOk : Type := Nat → Int → Int → Bool

/-- The module globals of `ActionGroupControl.py`. -/
structure St where
  runningAction : Bool
  stop_action : Bool
  stop_action_group : Bool
  startF : Bool
  endF : Bool
  current_status : String
  deriving Repr, DecidableEq

/-- Initial global state of the module: `runningAction = False`,
`stop_action = False`, `stop_action_group = False`, `__start = True`,
`__end = False`, `current_status = ""`. -/
def initSt : St :=
  { runningAction := false, stop_action := false, stop_action_group := false,
    startF := true, endF := false, current_status := "" }

/-- `stopAction()`: sets the frame-level cancel flag. -/
def stopAction (st : St) : St := { st with stop_action := true }

/-- `stopActionGroup()`: sets the gait-loop stop flag. -/
def stopActionGroup (st : St) : St := { st with stop_action_group := true }

/-- Observable events, in emission order. -/
inductive Ev where
  | cmd (servo : Nat) (pos : Int) (dur : Int)
  | sleep (ms : Int)
  | connect (file : String)
  | stopMsg
  | notFound (file : String)
  deriving Repr, DecidableEq

/-- `str(i + 1) in lock_servos` / `lock_servos[str(i + 1)]`, with
`lock_servos` a dict from servo-id strings to override positions. -/
def lockLookup (lock : List (String × Int)) (k : String) : Option Int :=
  (lock.find? (fun kv => kv.1 == k)).map (fun kv => kv.2)

/-- The inner `for i in range(0, len(act) - 2)` loop of `runAction`: one
`set_bus_servo_pulse` per target, override position when `str(i + 1)` is a
key of `lock_servos`.  Input is `positions.enum` (pairs `(i, act[2 + i])`).
Returns the successfully delivered commands and whether all sink calls
succeeded; a failing sink call raises, so dispatch stops there. -/
def dispatchTargets (sink : SinkOk) (lock : List (String × Int)) (dur : Int) :
    List (Nat × Int) → List Ev × Bool
  | [] => ([], true)
  | ip :: rest =>
    let pos : Int :=
      match lockLookup lock (toString (ip.1 + 1)) with
      | some v => v
      | none => ip.2
    if sink (ip.1 + 1) pos dur then
      let r := dispatchTargets sink lock dur rest
      (Ev.cmd (ip.1 + 1) pos dur :: r.1, r.2)
    else
      ([], false)

/-- How one pass of the streaming `while True` loop ends. -/
inductive StreamExit where
  | done
  | cancelled
  | raised
  deriving Repr, DecidableEq

/-- The fetch/stream `while True` loop of `runAction`, after the cursor is
opened.  Each iteration fetches a row; if `stop_action` is set it is cleared,
`stop` is printed and the loop breaks; a `None` row ends the loop; otherwise
the targets of the row are dispatched and the loop sleeps `act[1]` ms.  Returns
`(events, stop_action out, exit kind)`. -/
def streamFrames (sink : SinkOk) (lock : List (String × Int)) :
    List Frame → Bool → List Ev × Bool × StreamExit
  | _, true => ([Ev.stopMsg], false, StreamExit.cancelled)
  | [], false => ([], false, StreamExit.done)
  | f :: rest, false =>
    let d := dispatchTargets sink lock f.duration f.positions.enum
    if d.2 then
      let r := streamFrames sink lock rest false
      (d.1 ++ Ev.sleep f.duration :: r.1, r.2.1, r.2.2)
    else
      (d.1, false, StreamExit.raised)

/-- Classification of how a `runAction` call ends. -/
inductive Outcome where
  | completed
  | cancelled
  | busy
  | notFound
  | nop
  | errorRaised
  deriving Repr, DecidableEq

/-- Result of one `runAction` call: globals on exit, emitted events, whether
an exception propagated to the caller, and the outcome classification. -/
structure RAOut where
  st : St
  events : List Ev
  raised : Bool
  outcome : Outcome
  deriving Repr

/-- `runAction(actNum, lock_servos, path)` from the source.  Resolves
`path + actNum + ".d6a"`; on a missing file prints and unconditionally sets
`runningAction = False`; when already `runningAction` the body is silently
skipped; otherwise sets `runningAction = True`, streams the frames, and (only
when no exception was raised) clears `runningAction` on the way out. -/
def runAction (env : Env) (sink : SinkOk) (actNum : Option String)
    (lock_servos : List (String × Int)) (path : String) (st : St) : RAOut :=
  match actNum with
  | none => { st := st, events := [], raised := false, outcome := Outcome.nop }
  | some name =>
    let file := path ++ name ++ ".d6a"
    match env.files file with
    | some frames =>
      if st.runningAction = false then
        let st1 := { st with runningAction := true }
        let r := streamFrames sink lock_servos frames st1.stop_action
        match r.2.2 with
        | StreamExit.raised =>
          { st := { st1 with stop_action := r.2.1 },
            events := Ev.connect file :: r.1, raised := true,
            outcome := Outcome.errorRaised }
        | StreamExit.cancelled =>
          { st := { st1 with stop_action := r.2.1, runningAction := false },
            events := Ev.connect file :: r.1, raised := false,
            outcome := Outcome.cancelled }
        | StreamExit.done =>
          { st := { st1 with stop_action := r.2.1, runningAction := false },
            events := Ev.connect file :: r.1, raised := false,
            outcome := Outcome.completed }
      else
        { st := st, events := [], raised := false, outcome := Outcome.busy }
    | none =>
      { st := { st with runningAction := false },
        events := [Ev.notFound file], raised := false,
        outcome := Outcome.notFound }

/-- How one iteration of the `runActionGroup` `while True` loop ends:
`cont` falls through to the next iteration, `brk` executes `break`. -/
inductive StepRes where
  | cont (st : St) (times : Int) (evs : List Ev)
  | brk (st : St) (times : Int) (evs : List Ev)
  deriving Repr

/-- Tail of the discrete/stop branch of the loop body, after the owed
end-transition (if any) has been handled: check the group-stop flag, set
`__start`, exit when `times < 0`, otherwise play `actName`. -/
def branch1Rest (env : Env) (sink : SinkOk) (actName : String)
    (lock : List (String × Int)) (path : String)
    (st : St) (times : Int) (acc : List Ev) : StepRes :=
  if st.stop_action_group then
    StepRes.brk
      { st with endF := false, startF := true, stop_action_group := false }
      times acc
  else
    let st1 := { st with startF := true }
    if times < 0 then
      StepRes.brk
        { st1 with endF := false, startF := true, stop_action_group := false }
        times acc
    else
      let r := runAction env sink (some actName) lock path st1
      StepRes.cont r.st times (acc ++ r.events)

/-- One iteration of the `runActionGroup` loop body, `try/except` included:
a `raised` result from any `runAction` call aborts the rest of the body and
the loop continues (the `except BaseException` arm prints and falls through).
`temp` is the snapshot `temp = times` taken before the loop. -/
def groupStep (env : Env) (sink : SinkOk) (actName : String) (with_stand : Bool)
    (lock : List (String × Int)) (path : String) (temp : Int)
    (st : St) (times : Int) : StepRes :=
  let times := if temp ≠ 0 then times - 1 else times
  if (actName ≠ "go_forward" ∧ actName ≠ "go_forward_fast" ∧
      actName ≠ "go_forward_slow" ∧ actName ≠ "back" ∧ actName ≠ "back_fast")
      ∨ st.stop_action_group then
    if st.endF then
      let st1 := { st with endF := false }
      let r := runAction env sink
        (some (if st1.current_status = "go" then "go_forward_end" else "back_end"))
        lock path st1
      if r.raised then StepRes.cont r.st times r.events
      else branch1Rest env sink actName lock path r.st times r.events
    else
      branch1Rest env sink actName lock path st times []
  else
    if times < 0 then
      if with_stand then
        let r := runAction env sink
          (some (if actName = "go_forward" ∨ actName = "go_forward_fast" ∨
                    actName = "go_forward_slow"
                 then "go_forward_end" else "back_end"))
          lock path st
        if r.raised then StepRes.cont r.st times r.events
        else StepRes.brk r.st times r.events
      else
        StepRes.brk st times []
    else
      if st.startF then
        let st1 := { st with startF := false, endF := true }
        if actName = "go_forward" ∨ actName = "go_forward_slow" then
          let r := runAction env sink (some "go_forward_start") lock path st1
          if r.raised then StepRes.cont r.st times r.events
          else StepRes.cont { r.st with current_status := "go" } times r.events
        else if actName = "go_forward_fast" then
          let r := runAction env sink (some "go_forward_start_fast") lock path st1
          if r.raised then StepRes.cont r.st times r.events
          else StepRes.cont { r.st with current_status := "go" } times r.events
        else if actName = "back" then
          let r1 := runAction env sink (some "back_start") lock path st1
          if r1.raised then StepRes.cont r1.st times r1.events
          else
            let r2 := runAction env sink (some "back") lock path r1.st
            if r2.raised then StepRes.cont r2.st times (r1.events ++ r2.events)
            else StepRes.cont { r2.st with current_status := "back" } times
              (r1.events ++ r2.events)
        else if actName = "back_fast" then
          let r1 := runAction env sink (some "back_start") lock path st1
          if r1.raised then StepRes.cont r1.st times r1.events
          else
            let r2 := runAction env sink (some "back_fast") lock path r1.st
            if r2.raised then StepRes.cont r2.st times (r1.events ++ r2.events)
            else StepRes.cont { r2.st with current_status := "back" } times
              (r1.events ++ r2.events)
        else
          StepRes.cont st1 times []
      else
        let r := runAction env sink (some actName) lock path st
        StepRes.cont r.st times r.events

/-- The `while True` loop of `runActionGroup`, fuel-bounded (the source loop
can run forever when `times = 0` and no stop is ever signalled; `none` means
the fuel ran out before the loop broke). -/
def groupLoop (env : Env) (sink : SinkOk) (actName : String) (with_stand : Bool)
    (lock : List (String × Int)) (path : String) (temp : Int) :
    Nat → St → Int → List Ev → Option (St × List Ev)
  | 0, _, _, _ => none
  | fuel + 1, st, times, acc =>
    match groupStep env sink actName with_stand lock path temp st times with
    | StepRes.cont st1 t1 evs =>
      groupLoop env sink actName with_stand lock path temp fuel st1 t1 (acc ++ evs)
    | StepRes.brk st1 _ evs => some (st1, acc ++ evs)

/-- `runActionGroup(actName, times, with_stand, lock_servos, path)`:
snapshots `temp = times` and runs the loop. -/
def runActionGroup (env : Env) (sink : SinkOk) (actName : String) (times : Int)
    (with_stand : Bool) (lock : List (String × Int)) (path : String)
    (fuel : Nat) (st : St) : Option (St × List Ev) :=
  groupLoop env sink actName with_stand lock path times fuel st times []

/-- The action-group files opened for streaming, in order (one `connect`
per sequence actually played). -/
def playsOf (evs : List Ev) : List String :=
  evs.filterMap (fun e => match e with | Ev.connect f => some f | _ => none)

/-- Number of servo commands delivered to the sink. -/
def cmdCount (evs : List Ev) : Nat :=
  (evs.filter (fun e => match e with | Ev.cmd _ _ _ => true | _ => false)).length

/-- Total milliseconds slept. -/
def sleepSum (evs : List Ev) : Int :=
  (evs.filterMap (fun e => match e with | Ev.sleep d => some d | _ => none)).sum

/-- Specification-side description of the event trace of one frame: one
command per target (override position when locked, authored otherwise),
then the sleep of that frame. -/
def frameEvs (lock : List (String × Int)) (f : Frame) : List Ev :=
  (f.positions.enum.map (fun ip =>
    Ev.cmd (ip.1 + 1) ((lockLookup lock (toString (ip.1 + 1))).getD ip.2) f.duration))
    ++ [Ev.sleep f.duration]

/-- Specification-side description of the full trace of an uncancelled,
error-free playback: the per-frame traces in file order. -/
def streamEvs (lock : List (String × Int)) (frames : List Frame) : List Ev :=
  (frames.map (frameEvs lock)).flatten

/-- Fixture: a directory where every action-group file exists, each holding a
single frame of duration 20 commanding one servo to position 1. -/
def allEnv : Env := ⟨fun _ => some [⟨20, [1]⟩]⟩

/-- Fixture: an empty directory (no action-group file exists). -/
def emptyEnv : Env := ⟨fun _ => none⟩

/-- Fixture: a sink whose calls all succeed. -/
def sinkT : SinkOk := fun _ _ _ => true

/-- Fixture: a sink whose calls all raise. -/
def sinkF : SinkOk := fun _ _ _ => false

/-- Fixture: globals while another playback is actively streaming. -/
def busySt : St := { initSt with runningAction := true }

/-- Fixture: globals mid-gait after a forward start transition
(`__start` false, `__end` true, `current_status = "go"`). -/
def startedSt : St :=
  { initSt with startF := false, endF := true, current_status := "go" }

theorem dispatchTargets_ok (sink : SinkOk) (lock : List (String × Int)) (dur : Int)
    (hok : ∀ s p d, sink s p d = true) (l : List (Nat × Int)) :
    dispatchTargets sink lock dur l =
      (l.map (fun ip =>
        Ev.cmd (ip.1 + 1) ((lockLookup lock (toString (ip.1 + 1))).getD ip.2) dur),
       true) := by
  induction l with
  | nil => rfl
  | cons ip rest ih =>
    rw [dispatchTargets]
    simp only [hok, if_true, ih]
    cases h : lockLookup lock (toString (ip.1 + 1)) <;> simp [h]

theorem streamFrames_ok (sink : SinkOk) (lock : List (String × Int))
    (hok : ∀ s p d, sink s p d = true) (frames : List Frame) :
    streamFrames sink lock frames false =
      (streamEvs lock frames, false, StreamExit.done) := by
  induction frames with
  | nil => rfl
  | cons f rest ih =>
    rw [streamFrames, dispatchTargets_ok sink lock f.duration hok]
    simp [ih, streamEvs, frameEvs]

theorem runAction_ok (env : Env) (sink : SinkOk) (name : String)
    (lock : List (String × Int)) (path : String) (st : St) (frames : List Frame)
    (hf : env.files (path ++ name ++ ".d6a") = some frames)
    (hr : st.runningAction = false) (hs : st.stop_action = false)
    (hok : ∀ s p d, sink s p d = true) :
    runAction env sink (some name) lock path st =
      { st := st,
        events := Ev.connect (path ++ name ++ ".d6a") :: streamEvs lock frames,
        raised := false, outcome := Outcome.completed } := by
  obtain ⟨ra, sa, sg, stf, ef, cs⟩ := st
  simp only at hr hs
  subst hr; subst hs
  simp [runAction, hf, streamFrames_ok sink lock hok]

theorem playsOf_streamEvs (lock : List (String × Int)) (frames : List Frame) :
    playsOf (streamEvs lock frames) = [] := by
  induction frames with
  | nil => rfl
  | cons f rest ih =>
    simp only [streamEvs, List.map_cons, List.flatten_cons, playsOf,
      List.filterMap_append] at ih ⊢
    rw [ih]
    simp [frameEvs, List.filterMap_append, List.filterMap_map, Function.comp_def]

theorem filterMap_const_none {α β : Type} (l : List α) :
    l.filterMap (fun _ => (none : Option β)) = [] := by
  induction l with
  | nil => rfl
  | cons a l ih => simp [List.filterMap_cons, ih]

theorem sleepSum_append (a b : List Ev) :
    sleepSum (a ++ b) = sleepSum a + sleepSum b := by
  simp [sleepSum, List.filterMap_append]

theorem sleepSum_streamEvs (lock : List (String × Int)) (frames : List Frame) :
    sleepSum (streamEvs lock frames) = (frames.map (fun f => f.duration)).sum := by
  induction frames with
  | nil => rfl
  | cons f rest ih =>
    have h1 : streamEvs lock (f :: rest) = frameEvs lock f ++ streamEvs lock rest := by
      simp [streamEvs]
    rw [h1, sleepSum_append, ih]
    have h2 : sleepSum (frameEvs lock f) = f.duration := by
      simp [frameEvs, sleepSum, List.filterMap_append, List.filterMap_map,
        Function.comp_def, filterMap_const_none]
    rw [h2]
    simp

theorem streamFrames_stopped (sink : SinkOk) (lock : List (String × Int))
    (frames : List Frame) :
    streamFrames sink lock frames true =
      ([Ev.stopMsg], false, StreamExit.cancelled) := by
  cases frames <;> rfl

theorem groupLoop_succ_eq (env : Env) (sink : SinkOk) (actName : String)
    (with_stand : Bool) (lock : List (String × Int)) (path : String) (temp : Int)
    (fuel : Nat) (st : St) (times : Int) (acc : List Ev) :
    groupLoop env sink actName with_stand lock path temp (fuel + 1) st times acc =
      match groupStep env sink actName with_stand lock path temp st times with
      | StepRes.cont st1 t1 evs =>
        groupLoop env sink actName with_stand lock path temp fuel st1 t1 (acc ++ evs)
      | StepRes.brk st1 _ evs => some (st1, acc ++ evs) := rfl

/-- C2 (counterexample): an error raised while streaming (every sink call
fails) exits `runAction` with `runningAction` still true — the claim that the
flag is false on exit after a streaming error is false. -/
theorem C2_counterexample :
    ¬ ((runAction allEnv sinkF (some "x") [] "/AG/" initSt).raised = true →
       (runAction allEnv sinkF (some "x") [] "/AG/" initSt).st.runningAction = false) := by
  decide

/-- C2 (amended): when `runningAction` is false on entry, it is false on exit
exactly when no exception propagated: false after a complete run, a
cooperative cancellation, or a NotFound, but left true when a sink call
raises mid-stream (the source has no try/finally around the streaming loop). -/
theorem C2_flag_matches_raise (env : Env) (sink : SinkOk) (actNum : Option String)
    (lock : List (String × Int)) (path : String) (st : St)
    (h : st.runningAction = false) :
    (runAction env sink actNum lock path st).st.runningAction =
      (runAction env sink actNum lock path st).raised := by
  obtain ⟨ra, sa, sg, stf, ef, cs⟩ := st
  simp only at h
  subst h
  cases actNum with
  | none => rfl
  | some name =>
    rw [runAction]
    cases hf : env.files (path ++ name ++ ".d6a") with
    | none => rfl
    | some frames =>
      simp only
      rcases hex : streamFrames sink lock frames sa with ⟨evs, stop2, ex⟩
      cases ex <;> simp [hex]

theorem C2_witness :
    (runAction allEnv sinkT (some "x") [] "/AG/" initSt).st.runningAction =
      (runAction allEnv sinkT (some "x") [] "/AG/" initSt).raised :=
  C2_flag_matches_raise allEnv sinkT (some "x") [] "/AG/" initSt rfl

/-- C4: with no overrides, a free exclusivity flag and no cancellation, an
existing action group is streamed as exactly one command per target of every
frame, frames in file order, one sleep of the duration of the frame after each
batch of frame targets, and the total sleep is the sum of the durations. -/
theorem C4_playback_order (env : Env) (sink : SinkOk) (name : String)
    (path : String) (st : St) (frames : List Frame)
    (hf : env.files (path ++ name ++ ".d6a") = some frames)
    (hr : st.runningAction = false) (hs : st.stop_action = false)
    (hok : ∀ s p d, sink s p d = true) :
    (runAction env sink (some name) [] path st).events =
        Ev.connect (path ++ name ++ ".d6a") ::
          (frames.map (fun fr =>
            (fr.positions.enum.map (fun ip => Ev.cmd (ip.1 + 1) ip.2 fr.duration))
              ++ [Ev.sleep fr.duration])).flatten ∧
      sleepSum (runAction env sink (some name) [] path st).events =
        (frames.map (fun fr => fr.duration)).sum ∧
      (runAction env sink (some name) [] path st).outcome = Outcome.completed := by
  rw [runAction_ok env sink name [] path st frames hf hr hs hok]
  refine ⟨?_, ?_, rfl⟩
  · have he : frameEvs ([] : List (String × Int)) = fun fr =>
        (fr.positions.enum.map (fun ip => Ev.cmd (ip.1 + 1) ip.2 fr.duration))
          ++ [Ev.sleep fr.duration] := by
      funext fr
      simp [frameEvs, lockLookup]
    simp [streamEvs, he]
  · have h1 : sleepSum (Ev.connect (path ++ name ++ ".d6a") :: streamEvs [] frames)
        = sleepSum (streamEvs [] frames) := by
      simp [sleepSum, List.filterMap_cons]
    simpa [h1] using sleepSum_streamEvs [] frames

theorem C4_witness :
    (runAction allEnv sinkT (some "x") [] "/AG/" initSt).events =
        Ev.connect ("/AG/" ++ "x" ++ ".d6a") ::
          (([⟨20, [1]⟩] : List Frame).map (fun fr =>
            (fr.positions.enum.map (fun ip => Ev.cmd (ip.1 + 1) ip.2 fr.duration))
              ++ [Ev.sleep fr.duration])).flatten ∧
      sleepSum (runAction allEnv sinkT (some "x") [] "/AG/" initSt).events =
        (([⟨20, [1]⟩] : List Frame).map (fun fr => fr.duration)).sum ∧
      (runAction allEnv sinkT (some "x") [] "/AG/" initSt).outcome =
        Outcome.completed :=
  C4_playback_order allEnv sinkT "x" "/AG/" initSt [⟨20, [1]⟩] rfl rfl rfl
    (fun _ _ _ => rfl)

/-- C6: every delivered command carries the override position when the servo
id has its key in the overrides mapping and the authored position otherwise,
always with the authored duration of the frame. -/
theorem C6_lock_overrides (env : Env) (sink : SinkOk) (name : String)
    (lock : List (String × Int)) (path : String) (st : St) (frames : List Frame)
    (hf : env.files (path ++ name ++ ".d6a") = some frames)
    (hr : st.runningAction = false) (hs : st.stop_action = false)
    (hok : ∀ s p d, sink s p d = true) :
    (runAction env sink (some name) lock path st).events =
      Ev.connect (path ++ name ++ ".d6a") ::
        (frames.map (fun fr =>
          (fr.positions.enum.map (fun ip =>
            Ev.cmd (ip.1 + 1) ((lockLookup lock (toString (ip.1 + 1))).getD ip.2)
              fr.duration))
            ++ [Ev.sleep fr.duration])).flatten := by
  rw [runAction_ok env sink name lock path st frames hf hr hs hok]
  have he : frameEvs lock = fun fr =>
      (fr.positions.enum.map (fun ip =>
        Ev.cmd (ip.1 + 1) ((lockLookup lock (toString (ip.1 + 1))).getD ip.2)
          fr.duration))
        ++ [Ev.sleep fr.duration] := by
    funext fr
    simp [frameEvs]
  simp [streamEvs, he]

theorem C6_witness :
    (runAction allEnv sinkT (some "x") [("1", 999)] "/AG/" initSt).events =
      Ev.connect ("/AG/" ++ "x" ++ ".d6a") ::
        (([⟨20, [1]⟩] : List Frame).map (fun fr =>
          (fr.positions.enum.map (fun ip =>
            Ev.cmd (ip.1 + 1)
              ((lockLookup [("1", 999)] (toString (ip.1 + 1))).getD ip.2)
              fr.duration))
            ++ [Ev.sleep fr.duration])).flatten :=
  C6_lock_overrides allEnv sinkT "x" [("1", 999)] "/AG/" initSt [⟨20, [1]⟩]
    rfl rfl rfl (fun _ _ _ => rfl)

/-- C7: when the cancel flag is already set as `runAction` begins streaming an
existing file, no command is delivered, the outcome is Cancelled, and both the
cancel flag and the exclusivity flag are false afterwards. -/
theorem C7_precancelled (env : Env) (sink : SinkOk) (name : String)
    (lock : List (String × Int)) (path : String) (st : St) (frames : List Frame)
    (hf : env.files (path ++ name ++ ".d6a") = some frames)
    (hr : st.runningAction = false) (hs : st.stop_action = true) :
    (runAction env sink (some name) lock path st).outcome = Outcome.cancelled ∧
      cmdCount (runAction env sink (some name) lock path st).events = 0 ∧
      (runAction env sink (some name) lock path st).st.stop_action = false ∧
      (runAction env sink (some name) lock path st).st.runningAction = false := by
  obtain ⟨ra, sa, sg, stf, ef, cs⟩ := st
  simp only at hr hs
  subst hr; subst hs
  simp [runAction, hf, streamFrames_stopped, cmdCount]

theorem C7_witness :
    (runAction allEnv sinkT (some "x") [] "/AG/" (stopAction initSt)).outcome =
        Outcome.cancelled ∧
      cmdCount (runAction allEnv sinkT (some "x") [] "/AG/" (stopAction initSt)).events = 0 ∧
      (runAction allEnv sinkT (some "x") [] "/AG/" (stopAction initSt)).st.stop_action
        = false ∧
      (runAction allEnv sinkT (some "x") [] "/AG/" (stopAction initSt)).st.runningAction
        = false :=
  C7_precancelled allEnv sinkT "x" [] "/AG/" (stopAction initSt) [⟨20, [1]⟩]
    rfl rfl rfl

/-- C8: a `runAction` call that finds the file but sees `runningAction`
already true performs none of the streaming work: no events (so no commands
and no sleeping), state unchanged (the flag stays true), classified Busy. -/
theorem C8_busy_noop (env : Env) (sink : SinkOk) (name : String)
    (lock : List (String × Int)) (path : String) (st : St)
    (hf : (env.files (path ++ name ++ ".d6a")).isSome = true)
    (hr : st.runningAction = true) :
    runAction env sink (some name) lock path st =
      { st := st, events := [], raised := false, outcome := Outcome.busy } := by
  obtain ⟨frames, hf2⟩ := Option.isSome_iff_exists.mp hf
  simp [runAction, hf2, hr]

theorem C8_witness :
    runAction allEnv sinkT (some "x") [] "/AG/" busySt =
      { st := busySt, events := [], raised := false, outcome := Outcome.busy } :=
  C8_busy_noop allEnv sinkT "x" [] "/AG/" busySt rfl rfl

/-- C9: when the resolved file `path + name + ".d6a"` does not exist,
`runAction` delivers no servo command, only prints the missing-file message
(no exception propagates), and leaves `runningAction` false; a
`runActionGroup` call hitting the same missing file likewise opens no file,
delivers no command, and ends with `runningAction` false. -/
theorem C9_not_found_behavior (env : Env) (sink : SinkOk) (name : String)
    (lock : List (String × Int)) (path : String) (st : St) (ws : Bool) (f : Nat)
    (hf : env.files (path ++ name ++ ".d6a") = none)
    (hn1 : name ≠ "go_forward") (hn2 : name ≠ "go_forward_fast")
    (hn3 : name ≠ "go_forward_slow") (hn4 : name ≠ "back") (hn5 : name ≠ "back_fast")
    (hsa : st.stop_action = false) (hsg : st.stop_action_group = false)
    (hen : st.endF = false) :
    runAction env sink (some name) lock path st =
        { st := { st with runningAction := false },
          events := [Ev.notFound (path ++ name ++ ".d6a")],
          raised := false, outcome := Outcome.notFound } ∧
      (runActionGroup env sink name 1 ws lock path (f + 1 + 1) st).map
          (fun r => (playsOf r.2, cmdCount r.2, r.1.runningAction)) =
        some ([], 0, false) := by
  obtain ⟨ra, sa, sg, stf, ef, cs⟩ := st
  simp only at hsa hsg hen
  subst hsa; subst hsg; subst hen
  constructor
  · simp [runAction, hf]
  · have hs1 : groupStep env sink name ws lock path 1
        ⟨ra, false, false, stf, false, cs⟩ 1 =
        StepRes.cont ⟨false, false, false, true, false, cs⟩ 0
          [Ev.notFound (path ++ name ++ ".d6a")] := by
      simp [groupStep, branch1Rest, runAction, hf, hn1, hn2, hn3, hn4, hn5]
    have hs2 : groupStep env sink name ws lock path 1
        ⟨false, false, false, true, false, cs⟩ 0 =
        StepRes.brk ⟨false, false, false, true, false, cs⟩ (0 - 1) [] := by
      simp [groupStep, branch1Rest, hn1, hn2, hn3, hn4, hn5]
    rw [runActionGroup, groupLoop_succ_eq, hs1]
    dsimp only
    rw [groupLoop_succ_eq, hs2]
    simp [playsOf, cmdCount]

theorem C9_witness :
    runAction emptyEnv sinkT (some "wave") [] "/AG/" initSt =
        { st := { initSt with runningAction := false },
          events := [Ev.notFound ("/AG/" ++ "wave" ++ ".d6a")],
          raised := false, outcome := Outcome.notFound } ∧
      (runActionGroup emptyEnv sinkT "wave" 1 false [] "/AG/" (0 + 1 + 1) initSt).map
          (fun r => (playsOf r.2, cmdCount r.2, r.1.runningAction)) =
        some ([], 0, false) :=
  C9_not_found_behavior emptyEnv sinkT "wave" [] "/AG/" initSt false 0 rfl
    (by decide) (by decide) (by decide) (by decide) (by decide) rfl rfl rfl

/-- C10: a `runAction` call whose resolved file does not exist sets
`runningAction` to false unconditionally, whatever its value on entry — in
particular a NotFound call releases exclusivity held by an active playback. -/
theorem C10_notfound_releases (env : Env) (sink : SinkOk) (name : String)
    (lock : List (String × Int)) (path : String) (st : St)
    (hf : env.files (path ++ name ++ ".d6a") = none) :
    (runAction env sink (some name) lock path st).st.runningAction = false := by
  simp [runAction, hf]

theorem C10_witness :
    (runAction emptyEnv sinkT (some "x") [] "/AG/" busySt).st.runningAction = false :=
  C10_notfound_releases emptyEnv sinkT "x" [] "/AG/" busySt rfl

theorem playsOf_append (a b : List Ev) :
    playsOf (a ++ b) = playsOf a ++ playsOf b := by
  simp [playsOf, List.filterMap_append]

theorem playsOf_connect_cons (s : String) (l : List Ev) :
    playsOf (Ev.connect s :: l) = s :: playsOf l := by
  simp [playsOf, List.filterMap_cons]

/-- C3: whenever the gait loop runs while an end transition is owed
(`__end` true) and the group stop has been signalled, the very next
iteration plays exactly one end transition — `go_forward_end` when
`current_status` is `"go"`, otherwise `back_end` — and the loop breaks with
`__end` false, `__start` true and the stop flag cleared. -/
theorem C3_stop_flushes_end (env : Env) (sink : SinkOk) (actName : String)
    (times : Int) (with_stand : Bool) (lock : List (String × Int)) (path : String)
    (f : Nat) (st : St)
    (hend : st.endF = true) (hstop : st.stop_action_group = true)
    (hra : st.runningAction = false) (hsa : st.stop_action = false)
    (hfiles : ∀ s, (env.files s).isSome = true)
    (hok : ∀ s p d, sink s p d = true) :
    (runActionGroup env sink actName times with_stand lock path (f + 1) st).map
        (fun r => (playsOf r.2, r.1.endF, r.1.startF, r.1.stop_action_group)) =
      some ([path ++ (if st.current_status = "go" then "go_forward_end" else "back_end")
              ++ ".d6a"], false, true, false) := by
  obtain ⟨ra, sa, sg, stf, ef, cs⟩ := st
  simp only at hend hstop hra hsa
  subst hend; subst hstop; subst hra; subst hsa
  obtain ⟨g, hg⟩ := Option.isSome_iff_exists.mp
    (hfiles (path ++ (if cs = "go" then "go_forward_end" else "back_end") ++ ".d6a"))
  have hs1 : groupStep env sink actName with_stand lock path times
      ⟨false, false, true, stf, true, cs⟩ times =
      StepRes.brk ⟨false, false, false, true, false, cs⟩
        (if times ≠ 0 then times - 1 else times)
        (Ev.connect (path ++ (if cs = "go" then "go_forward_end" else "back_end")
            ++ ".d6a") :: streamEvs lock g) := by
    simp [groupStep, branch1Rest,
      runAction_ok env sink (if cs = "go" then "go_forward_end" else "back_end")
        lock path ⟨false, false, true, stf, false, cs⟩ g hg rfl rfl hok]
  rw [runActionGroup, groupLoop_succ_eq, hs1]
  simp [playsOf_connect_cons, playsOf_streamEvs]

theorem C3_witness :
    (runActionGroup allEnv sinkT "go_forward" 5 true [] "/AG/" (0 + 1)
        (stopActionGroup startedSt)).map
        (fun r => (playsOf r.2, r.1.endF, r.1.startF, r.1.stop_action_group)) =
      some (["/AG/" ++ (if (stopActionGroup startedSt).current_status = "go"
                        then "go_forward_end" else "back_end") ++ ".d6a"],
            false, true, false) :=
  C3_stop_flushes_end allEnv sinkT "go_forward" 5 true [] "/AG/" 0
    (stopActionGroup startedSt) rfl rfl rfl rfl (fun _ => rfl) (fun _ _ _ => rfl)

/-- C1 (counterexample): with every action-group file present, running
`runActionGroup("go_forward", times=3, with_stand=True)` from Idle does not
play start + three `go_forward` + end and does not return to Idle: the start
transition consumes one loop iteration, so only two mid-gait plays happen,
and the `with_stand` exit path never resets `__start`/`__end`. -/
theorem C1_counterexample :
    ¬ ((runActionGroup allEnv sinkT "go_forward" 3 true [] "/AG/" 10 initSt).map
        (fun r => (playsOf r.2, r.1.startF, r.1.endF)) =
      some (["/AG/go_forward_start.d6a", "/AG/go_forward.d6a", "/AG/go_forward.d6a",
             "/AG/go_forward.d6a", "/AG/go_forward_end.d6a"], true, false)) := by
  decide

/-- C1 (amended): from Idle with all files present,
`runActionGroup("go_forward", times=3, with_stand=True)` plays exactly one
`go_forward_start`, then two `go_forward`, then one `go_forward_end`, in that
order, and afterwards `__start` is false and `__end` is true (the gait state
is not reset to Idle by the `with_stand` exit path). -/
theorem C1_gait_stitching (env : Env) (sink : SinkOk) (lock : List (String × Int))
    (path : String) (f : Nat) (st : St)
    (hra : st.runningAction = false) (hsa : st.stop_action = false)
    (hsg : st.stop_action_group = false) (hst : st.startF = true)
    (hen : st.endF = false)
    (hfiles : ∀ s, (env.files s).isSome = true)
    (hok : ∀ s p d, sink s p d = true) :
    (runActionGroup env sink "go_forward" 3 true lock path (f + 4) st).map
        (fun r => (playsOf r.2, r.1.startF, r.1.endF)) =
      some ([path ++ "go_forward_start" ++ ".d6a",
             path ++ "go_forward" ++ ".d6a",
             path ++ "go_forward" ++ ".d6a",
             path ++ "go_forward_end" ++ ".d6a"], false, true) := by
  obtain ⟨ra, sa, sg, stf, ef, cs⟩ := st
  simp only at hra hsa hsg hst hen
  subst hra; subst hsa; subst hsg; subst hst; subst hen
  obtain ⟨g1, hg1⟩ := Option.isSome_iff_exists.mp
    (hfiles (path ++ "go_forward_start" ++ ".d6a"))
  obtain ⟨g2, hg2⟩ := Option.isSome_iff_exists.mp
    (hfiles (path ++ "go_forward" ++ ".d6a"))
  obtain ⟨g3, hg3⟩ := Option.isSome_iff_exists.mp
    (hfiles (path ++ "go_forward_end" ++ ".d6a"))
  have hs1 : groupStep env sink "go_forward" true lock path 3
      ⟨false, false, false, true, false, cs⟩ 3 =
      StepRes.cont ⟨false, false, false, false, true, "go"⟩ 2
        (Ev.connect (path ++ "go_forward_start" ++ ".d6a") :: streamEvs lock g1) := by
    simp [groupStep,
      runAction_ok env sink "go_forward_start" lock path
        ⟨false, false, false, false, true, cs⟩ g1 hg1 rfl rfl hok]
  have hs2 : groupStep env sink "go_forward" true lock path 3
      ⟨false, false, false, false, true, "go"⟩ 2 =
      StepRes.cont ⟨false, false, false, false, true, "go"⟩ 1
        (Ev.connect (path ++ "go_forward" ++ ".d6a") :: streamEvs lock g2) := by
    simp [groupStep,
      runAction_ok env sink "go_forward" lock path
        ⟨false, false, false, false, true, "go"⟩ g2 hg2 rfl rfl hok]
  have hs3 : groupStep env sink "go_forward" true lock path 3
      ⟨false, false, false, false, true, "go"⟩ 1 =
      StepRes.cont ⟨false, false, false, false, true, "go"⟩ 0
        (Ev.connect (path ++ "go_forward" ++ ".d6a") :: streamEvs lock g2) := by
    simp [groupStep,
      runAction_ok env sink "go_forward" lock path
        ⟨false, false, false, false, true, "go"⟩ g2 hg2 rfl rfl hok]
  have hs4 : groupStep env sink "go_forward" true lock path 3
      ⟨false, false, false, false, true, "go"⟩ 0 =
      StepRes.brk ⟨false, false, false, false, true, "go"⟩ (-1)
        (Ev.connect (path ++ "go_forward_end" ++ ".d6a") :: streamEvs lock g3) := by
    simp [groupStep,
      runAction_ok env sink "go_forward_end" lock path
        ⟨false, false, false, false, true, "go"⟩ g3 hg3 rfl rfl hok]
  rw [runActionGroup]
  rw [show f + 4 = f + 1 + 1 + 1 + 1 from rfl]
  rw [groupLoop_succ_eq, hs1]
  dsimp only
  rw [groupLoop_succ_eq, hs2]
  dsimp only
  rw [groupLoop_succ_eq, hs3]
  dsimp only
  rw [groupLoop_succ_eq, hs4]
  simp [playsOf_append, playsOf_connect_cons, playsOf_streamEvs]

theorem C1_witness :
    (runActionGroup allEnv sinkT "go_forward" 3 true [] "/AG/" (0 + 4) initSt).map
        (fun r => (playsOf r.2, r.1.startF, r.1.endF)) =
      some (["/AG/" ++ "go_forward_start" ++ ".d6a",
             "/AG/" ++ "go_forward" ++ ".d6a",
             "/AG/" ++ "go_forward" ++ ".d6a",
             "/AG/" ++ "go_forward_end" ++ ".d6a"], false, true) :=
  C1_gait_stitching allEnv sinkT [] "/AG/" 0 initSt rfl rfl rfl rfl rfl
    (fun _ => rfl) (fun _ _ _ => rfl)

/-- C5 (counterexample): with every file present, calling
`runActionGroup("go_forward", times=1)` from Idle plays the mid-gait cycle
`go_forward` zero times, not once — the single loop iteration with
`times >= 0` is consumed by the start transition. -/
theorem C5_counterexample :
    ¬ ((runActionGroup allEnv sinkT "go_forward" 1 false [] "/AG/" 10 initSt).map
        (fun r => (playsOf r.2).count "/AG/go_forward.d6a") = some 1) := by
  decide

/-- C5 (amended): a caller passing `times = 1` from Idle gets zero mid-gait
cycle plays for the forward-family names — only the start transition
(`go_forward_start`, or `go_forward_start_fast` for `go_forward_fast`) is
played — while for `back` and `back_fast` exactly one mid-gait cycle play of
the name follows `back_start`, because the start branch plays the base cycle
itself. -/
theorem C5_times_one (env : Env) (sink : SinkOk) (lock : List (String × Int))
    (path : String) (f : Nat) (st : St)
    (hra : st.runningAction = false) (hsa : st.stop_action = false)
    (hsg : st.stop_action_group = false) (hst : st.startF = true)
    (hen : st.endF = false)
    (hfiles : ∀ s, (env.files s).isSome = true)
    (hok : ∀ s p d, sink s p d = true) :
    ((runActionGroup env sink "go_forward" 1 false lock path (f + 2) st).map
        (fun r => playsOf r.2) = some [path ++ "go_forward_start" ++ ".d6a"]) ∧
    ((runActionGroup env sink "go_forward_slow" 1 false lock path (f + 2) st).map
        (fun r => playsOf r.2) = some [path ++ "go_forward_start" ++ ".d6a"]) ∧
    ((runActionGroup env sink "go_forward_fast" 1 false lock path (f + 2) st).map
        (fun r => playsOf r.2) = some [path ++ "go_forward_start_fast" ++ ".d6a"]) ∧
    ((runActionGroup env sink "back" 1 false lock path (f + 2) st).map
        (fun r => playsOf r.2) =
      some [path ++ "back_start" ++ ".d6a", path ++ "back" ++ ".d6a"]) ∧
    ((runActionGroup env sink "back_fast" 1 false lock path (f + 2) st).map
        (fun r => playsOf r.2) =
      some [path ++ "back_start" ++ ".d6a", path ++ "back_fast" ++ ".d6a"]) := by
  obtain ⟨ra, sa, sg, stf, ef, cs⟩ := st
  simp only at hra hsa hsg hst hen
  subst hra; subst hsa; subst hsg; subst hst; subst hen
  obtain ⟨gs, hgs⟩ := Option.isSome_iff_exists.mp
    (hfiles (path ++ "go_forward_start" ++ ".d6a"))
  obtain ⟨gsf, hgsf⟩ := Option.isSome_iff_exists.mp
    (hfiles (path ++ "go_forward_start_fast" ++ ".d6a"))
  obtain ⟨gb, hgb⟩ := Option.isSome_iff_exists.mp
    (hfiles (path ++ "back_start" ++ ".d6a"))
  obtain ⟨gbb, hgbb⟩ := Option.isSome_iff_exists.mp
    (hfiles (path ++ "back" ++ ".d6a"))
  obtain ⟨gbf, hgbf⟩ := Option.isSome_iff_exists.mp
    (hfiles (path ++ "back_fast" ++ ".d6a"))
  have hstart1 : groupStep env sink "go_forward" false lock path 1
      ⟨false, false, false, true, false, cs⟩ 1 =
      StepRes.cont ⟨false, false, false, false, true, "go"⟩ 0
        (Ev.connect (path ++ "go_forward_start" ++ ".d6a") :: streamEvs lock gs) := by
    simp [groupStep,
      runAction_ok env sink "go_forward_start" lock path
        ⟨false, false, false, false, true, cs⟩ gs hgs rfl rfl hok]
  have hstart2 : groupStep env sink "go_forward_slow" false lock path 1
      ⟨false, false, false, true, false, cs⟩ 1 =
      StepRes.cont ⟨false, false, false, false, true, "go"⟩ 0
        (Ev.connect (path ++ "go_forward_start" ++ ".d6a") :: streamEvs lock gs) := by
    simp [groupStep,
      runAction_ok env sink "go_forward_start" lock path
        ⟨false, false, false, false, true, cs⟩ gs hgs rfl rfl hok]
  have hstart3 : groupStep env sink "go_forward_fast" false lock path 1
      ⟨false, false, false, true, false, cs⟩ 1 =
      StepRes.cont ⟨false, false, false, false, true, "go"⟩ 0
        (Ev.connect (path ++ "go_forward_start_fast" ++ ".d6a")
          :: streamEvs lock gsf) := by
    simp [groupStep,
      runAction_ok env sink "go_forward_start_fast" lock path
        ⟨false, false, false, false, true, cs⟩ gsf hgsf rfl rfl hok]
  have hstart4 : groupStep env sink "back" false lock path 1
      ⟨false, false, false, true, false, cs⟩ 1 =
      StepRes.cont ⟨false, false, false, false, true, "back"⟩ 0
        ((Ev.connect (path ++ "back_start" ++ ".d6a") :: streamEvs lock gb) ++
         (Ev.connect (path ++ "back" ++ ".d6a") :: streamEvs lock gbb)) := by
    simp [groupStep,
      runAction_ok env sink "back_start" lock path
        ⟨false, false, false, false, true, cs⟩ gb hgb rfl rfl hok,
      runAction_ok env sink "back" lock path
        ⟨false, false, false, false, true, cs⟩ gbb hgbb rfl rfl hok]
  have hstart5 : groupStep env sink "back_fast" false lock path 1
      ⟨false, false, false, true, false, cs⟩ 1 =
      StepRes.cont ⟨false, false, false, false, true, "back"⟩ 0
        ((Ev.connect (path ++ "back_start" ++ ".d6a") :: streamEvs lock gb) ++
         (Ev.connect (path ++ "back_fast" ++ ".d6a") :: streamEvs lock gbf)) := by
    simp [groupStep,
      runAction_ok env sink "back_start" lock path
        ⟨false, false, false, false, true, cs⟩ gb hgb rfl rfl hok,
      runAction_ok env sink "back_fast" lock path
        ⟨false, false, false, false, true, cs⟩ gbf hgbf rfl rfl hok]
  have hbrk1 : groupStep env sink "go_forward" false lock path 1
      ⟨false, false, false, false, true, "go"⟩ 0 =
      StepRes.brk ⟨false, false, false, false, true, "go"⟩ (-1) [] := by
    simp [groupStep]
  have hbrk2 : groupStep env sink "go_forward_slow" false lock path 1
      ⟨false, false, false, false, true, "go"⟩ 0 =
      StepRes.brk ⟨false, false, false, false, true, "go"⟩ (-1) [] := by
    simp [groupStep]
  have hbrk3 : groupStep env sink "go_forward_fast" false lock path 1
      ⟨false, false, false, false, true, "go"⟩ 0 =
      StepRes.brk ⟨false, false, false, false, true, "go"⟩ (-1) [] := by
    simp [groupStep]
  have hbrk4 : groupStep env sink "back" false lock path 1
      ⟨false, false, false, false, true, "back"⟩ 0 =
      StepRes.brk ⟨false, false, false, false, true, "back"⟩ (-1) [] := by
    simp [groupStep]
  have hbrk5 : groupStep env sink "back_fast" false lock path 1
      ⟨false, false, false, false, true, "back"⟩ 0 =
      StepRes.brk ⟨false, false, false, false, true, "back"⟩ (-1) [] := by
    simp [groupStep]
  refine ⟨?_, ?_, ?_, ?_, ?_⟩
  · rw [runActionGroup, show f + 2 = f + 1 + 1 from rfl,
      groupLoop_succ_eq, hstart1]
    dsimp only
    rw [groupLoop_succ_eq, hbrk1]
    simp [playsOf_append, playsOf_connect_cons, playsOf_streamEvs]
  · rw [runActionGroup, show f + 2 = f + 1 + 1 from rfl,
      groupLoop_succ_eq, hstart2]
    dsimp only
    rw [groupLoop_succ_eq, hbrk2]
    simp [playsOf_append, playsOf_connect_cons, playsOf_streamEvs]
  · rw [runActionGroup, show f + 2 = f + 1 + 1 from rfl,
      groupLoop_succ_eq, hstart3]
    dsimp only
    rw [groupLoop_succ_eq, hbrk3]
    simp [playsOf_append, playsOf_connect_cons, playsOf_streamEvs]
  · rw [runActionGroup, show f + 2 = f + 1 + 1 from rfl,
      groupLoop_succ_eq, hstart4]
    dsimp only
    rw [groupLoop_succ_eq, hbrk4]
    simp [playsOf_append, playsOf_connect_cons, playsOf_streamEvs]
  · rw [runActionGroup, show f + 2 = f + 1 + 1 from rfl,
      groupLoop_succ_eq, hstart5]
    dsimp only
    rw [groupLoop_succ_eq, hbrk5]
    simp [playsOf_append, playsOf_connect_cons, playsOf_streamEvs]

theorem C5_witness :
    ((runActionGroup allEnv sinkT "go_forward" 1 false [] "/AG/" (0 + 2) initSt).map
        (fun r => playsOf r.2) = some ["/AG/" ++ "go_forward_start" ++ ".d6a"]) ∧
    ((runActionGroup allEnv sinkT "go_forward_slow" 1 false [] "/AG/" (0 + 2) initSt).map
        (fun r => playsOf r.2) = some ["/AG/" ++ "go_forward_start" ++ ".d6a"]) ∧
    ((runActionGroup allEnv sinkT "go_forward_fast" 1 false [] "/AG/" (0 + 2) initSt).map
        (fun r => playsOf r.2) = some ["/AG/" ++ "go_forward_start_fast" ++ ".d6a"]) ∧
    ((runActionGroup allEnv sinkT "back" 1 false [] "/AG/" (0 + 2) initSt).map
        (fun r => playsOf r.2) =
      some ["/AG/" ++ "back_start" ++ ".d6a", "/AG/" ++ "back" ++ ".d6a"]) ∧
    ((runActionGroup allEnv sinkT "back_fast" 1 false [] "/AG/" (0 + 2) initSt).map
        (fun r => playsOf r.2) =
      some ["/AG/" ++ "back_start" ++ ".d6a", "/AG/" ++ "back_fast" ++ ".d6a"]) :=
  C5_times_one allEnv sinkT [] "/AG/" 0 initSt rfl rfl rfl rfl rfl
    (fun _ => rfl) (fun _ _ _ => rfl)
